import Mathlib

/-!
Verification of the scheduling core of GentleAlertScheduler (src/main.py).

The development shallowly embeds the `Scheduler` class of `main.py`:

* Dates and times: the program uses Qt QDate / QTime / QDateTime with naive
  local times.  QDate is modelled as a year/month/day record over the
  proleptic Gregorian calendar; ordering and day-of-week agree with Qt
  (which compares Julian day numbers).  Times of day are modelled at second
  precision (every alert time in the program comes from parsing an
  "HH:mm:ss" string); `msecsTo` is 1000 times the difference in seconds.
* String fields holding dates and times in the alert dictionaries are
  embedded as their parse results: `Option` values that are `none` exactly
  when `QTime.fromString` / `QDate.fromString` would report an invalid
  value in the source.
* The `repeat` field is kept as a raw `String`, exactly as in the alert
  dictionaries, so that unknown repeat modes reach the same fall-through
  branch as in `calculate_next_trigger`.
* The mutable scheduler state (`config_manager.alerts`, `alert_timers`,
  `temporary_timers`) becomes an explicit `SchedState` record; methods
  become state-passing functions.  Calls to the UI (overlay display) are
  returned as an explicit list of presented alerts; persistence and
  logging have no effect on scheduling state and are dropped.
-/

set_option maxHeartbeats 1000000

namespace GAS

/-! ## Calendar model (QDate / QTime / QDateTime semantics) -/

/-- Proleptic Gregorian leap-year rule, as used by Qt QDate. -/
def isLeapYear (y : Int) : Prop := (y % 4 = 0 ∧ y % 100 ≠ 0) ∨ y % 400 = 0

instance (y : Int) : Decidable (isLeapYear y) := by unfold isLeapYear; infer_instance

/-- Number of days in the given month (QDate.daysInMonth). -/
def daysInMonth (y m : Int) : Int :=
  if m = 2 then (if isLeapYear y then 29 else 28)
  else if m = 4 ∨ m = 6 ∨ m = 9 ∨ m = 11 then 30
  else 31

/-- A calendar date, the model of QDate. -/
structure Ymd where
  year : Int
  month : Int
  day : Int
deriving DecidableEq, Repr, Inhabited

/-- The date is an actual calendar date. Every QDate produced by parsing or by
QDate construction in the scheduler satisfies this. -/
def Ymd.valid (d : Ymd) : Prop :=
  1 ≤ d.month ∧ d.month ≤ 12 ∧ 1 ≤ d.day ∧ d.day ≤ daysInMonth d.year d.month

instance (d : Ymd) : Decidable d.valid := by unfold Ymd.valid; infer_instance

/-- Day number of a date (days since 1970-01-01, proleptic Gregorian).  Qt
stores a Julian day and compares dates by it; this linearisation differs from
the Julian day only by a constant offset, so it induces the same order. -/
def toDayNumber (d : Ymd) : Int :=
  let y := if d.month ≤ 2 then d.year - 1 else d.year
  let era := y / 400
  let yoe := y - era * 400
  let mp := (d.month + 9) % 12
  let doy := (153 * mp + 2) / 5 + d.day - 1
  let doe := yoe * 365 + yoe / 4 - yoe / 100 + doy
  era * 146097 + doe - 719468

/-- Successor date (QDate.addDays 1). -/
def nextDay (d : Ymd) : Ymd :=
  if d.day < daysInMonth d.year d.month then ⟨d.year, d.month, d.day + 1⟩
  else if d.month < 12 then ⟨d.year, d.month + 1, 1⟩
  else ⟨d.year + 1, 1, 1⟩

/-- QDate.addDays for a nonnegative number of days (all uses in the
scheduler add 0..7 days). -/
def addDays (d : Ymd) : Nat → Ymd
  | 0 => d
  | Nat.succ n => nextDay (addDays d n)

/-- QDate.dayOfWeek: Monday = 1 .. Sunday = 7 (1970-01-01 was a Thursday). -/
def dayOfWeek (d : Ymd) : Int := (toDayNumber d + 3) % 7 + 1

/-- A date-time instant, the model of QDateTime: a date plus a time of day in
seconds (0 ≤ time < 86400 for every value the program can construct). -/
structure QDateTime where
  date : Ymd
  time : Int
deriving DecidableEq, Repr, Inhabited

/-- Absolute second count of an instant; QDateTime comparisons and msecsTo
are defined through it (msecsTo multiplies the difference by 1000). -/
def QDateTime.toSecs (dt : QDateTime) : Int := 86400 * toDayNumber dt.date + dt.time

/-- Well-formedness of an instant: valid date, time of day in range. -/
def QDateTime.wf (dt : QDateTime) : Prop := dt.date.valid ∧ 0 ≤ dt.time ∧ dt.time < 86400

instance (dt : QDateTime) : Decidable dt.wf := by unfold QDateTime.wf; infer_instance

/-- QDateTime.addSecs followed by re-splitting into date and time, as done in
delay_alerts (used only with a nonnegative offset there). -/
def QDateTime.addSecs (dt : QDateTime) (s : Int) : QDateTime :=
  let tot := dt.time + s
  ⟨addDays dt.date (tot / 86400).toNat, tot % 86400⟩

/-! ### Calendar lemmas -/

theorem nextDay_valid (d : Ymd) (h : d.valid) : (nextDay d).valid := by
  obtain ⟨h1, h2, h3, h4⟩ := h
  unfold nextDay Ymd.valid daysInMonth isLeapYear at *
  split_ifs at * <;> simp_all <;> omega

theorem toDayNumber_nextDay (d : Ymd) (h : d.valid) :
    toDayNumber (nextDay d) = toDayNumber d + 1 := by
  obtain ⟨h1, h2, h3, h4⟩ := h
  have hm : d.month = 1 ∨ d.month = 2 ∨ d.month = 3 ∨ d.month = 4 ∨ d.month = 5 ∨
      d.month = 6 ∨ d.month = 7 ∨ d.month = 8 ∨ d.month = 9 ∨ d.month = 10 ∨
      d.month = 11 ∨ d.month = 12 := by omega
  unfold nextDay toDayNumber daysInMonth isLeapYear at *
  rcases hm with hm | hm | hm | hm | hm | hm | hm | hm | hm | hm | hm | hm <;>
    simp only [hm] at * <;> split_ifs at * <;> simp_all <;> omega

theorem addDays_valid (d : Ymd) (h : d.valid) (n : Nat) : (addDays d n).valid := by
  induction n with
  | zero => exact h
  | succ n ih => exact nextDay_valid _ ih

theorem toDayNumber_addDays (d : Ymd) (h : d.valid) (n : Nat) :
    toDayNumber (addDays d n) = toDayNumber d + n := by
  induction n with
  | zero => simp [addDays]
  | succ n ih =>
    have := toDayNumber_nextDay (addDays d n) (addDays_valid d h n)
    simp only [addDays]
    omega

/-! ## Repeat-mode constants (main.py lines 84-89) -/

def REPEAT_OPTION_NONE : String := "No Repeat"

def REPEAT_OPTION_DAILY : String := "Daily"

def REPEAT_OPTION_WEEKLY : String := "Weekly"

def REPEAT_OPTION_MONTHLY : String := "Monthly"

def REPEAT_OPTIONS : List String :=
  [REPEAT_OPTION_NONE, REPEAT_OPTION_DAILY, REPEAT_OPTION_WEEKLY, REPEAT_OPTION_MONTHLY]

/-- Lookup in the weekdays_map built from WEEKDAYS_ABBR in the weekly branch
of calculate_next_trigger: Mon maps to 1, ..., Sun maps to 7; any other
string is absent from the map. -/
def weekdayNum (s : String) : Option Int :=
  if s = "Mon" then some 1
  else if s = "Tue" then some 2
  else if s = "Wed" then some 3
  else if s = "Thu" then some 4
  else if s = "Fri" then some 5
  else if s = "Sat" then some 6
  else if s = "Sun" then some 7
  else none

/-! ## The alert record -/

/-- An alert dictionary, restricted to the fields the Scheduler reads.  The
date and time string fields are embedded as their parse results; repeat_mode
is the raw string stored under the key given by ALERT_KEY_REPEAT.  The
remaining fields (text, display, original_alert_index) take part in the
structural equality used for deduplication in delay_alerts. -/
structure Alert where
  enabled : Bool
  date : Option Ymd
  time : Option Int
  repeat_mode : String
  text : String
  weekdays : List String
  day_of_month : Int
  display : String
  original_alert_index : Option Int
deriving DecidableEq, Repr, Inhabited

/-! ## Scheduler.calculate_next_trigger (main.py lines 582-676) -/

/-- The month-walking loop of the monthly branch (main.py lines 653-673): at
most 25 iterations; in each month clamp day_of_month to the month length,
accept the first candidate on/after the start date and on/after the first of
the starting month whose combined instant is ≥ now, else advance one month. -/
def monthlyNext (fuel : Nat) (ty tm : Int) (day_of_month : Int) (alert_time : Int)
    (start_date : Ymd) (check_month_first : Ymd) (now : QDateTime) : Option QDateTime :=
  match fuel with
  | 0 => none
  | Nat.succ fuel =>
    let dim := daysInMonth ty tm
    let actual_day := min day_of_month dim
    let cand : Ymd := ⟨ty, tm, actual_day⟩
    let rest :=
      if tm = 12 then
        monthlyNext fuel (ty + 1) 1 day_of_month alert_time start_date check_month_first now
      else
        monthlyNext fuel ty (tm + 1) day_of_month alert_time start_date check_month_first now
    if toDayNumber start_date ≤ toDayNumber cand ∧
        toDayNumber check_month_first ≤ toDayNumber cand then
      let potential : QDateTime := ⟨cand, alert_time⟩
      if now.toSecs ≤ potential.toSecs then some potential else rest
    else rest

/-- Scheduler.calculate_next_trigger: compute the next trigger instant for an
alert given now, or none.  Mirrors main.py lines 582-676: invalid time gives
none; an invalid start date gives none for a non-repeating alert and falls
back to the current date otherwise; then one branch per repeat mode, with an
unknown repeat mode falling through to none. -/
def calculate_next_trigger (now : QDateTime) (a : Alert) : Option QDateTime :=
  match a.time with
  | none => none
  | some alert_time =>
    if a.repeat_mode = REPEAT_OPTION_NONE then
      match a.date with
      | none => none
      | some start_date =>
        let trigger_dt : QDateTime := ⟨start_date, alert_time⟩
        if now.toSecs ≤ trigger_dt.toSecs then some trigger_dt else none
    else
      let start_date := match a.date with | some d => d | none => now.date
      let check_date :=
        if toDayNumber now.date < toDayNumber start_date then start_date else now.date
      if a.repeat_mode = REPEAT_OPTION_DAILY then
        let potential : QDateTime := ⟨check_date, alert_time⟩
        if now.toSecs ≤ potential.toSecs then some potential
        else some ⟨addDays check_date 1, alert_time⟩
      else if a.repeat_mode = REPEAT_OPTION_WEEKLY then
        let target := a.weekdays.filterMap weekdayNum
        if target = [] then none
        else
          (List.range 8).findSome? (fun i =>
            let ccd := addDays check_date i
            if dayOfWeek ccd ∈ target ∧ toDayNumber start_date ≤ toDayNumber ccd then
              let potential : QDateTime := ⟨ccd, alert_time⟩
              if now.toSecs ≤ potential.toSecs then some potential else none
            else none)
      else if a.repeat_mode = REPEAT_OPTION_MONTHLY then
        if 1 ≤ a.day_of_month ∧ a.day_of_month ≤ 31 then
          monthlyNext 25 check_date.year check_date.month a.day_of_month alert_time
            start_date ⟨check_date.year, check_date.month, 1⟩ now
        else none
      else none

/-! ## Scheduler state and timer lifecycle -/

/-- A single-shot QTimer as the Scheduler arms it: the frozen alert snapshot
captured by the timeout lambda, and the millisecond delay passed to
QTimer.start. -/
structure Timer where
  payload : Alert
  interval : Int
deriving DecidableEq, Repr, Inhabited

/-- The mutable scheduler state: the alert list owned by ConfigManager, the
dictionary alert_timers keyed by alert index, and the set temporary_timers
of ephemeral (delayed/snoozed) timers. -/
structure SchedState where
  alerts : List Alert
  alert_timers : List (Int × Timer)
  temporary_timers : List Timer
deriving DecidableEq, Repr, Inhabited

/-- Dictionary lookup in alert_timers. -/
def lookupTimer (ts : List (Int × Timer)) (i : Int) : Option Timer :=
  match ts with
  | [] => none
  | p :: rest => if p.1 = i then some p.2 else lookupTimer rest i

/-- Remove the entry for index i (dict.pop in stop_alert_timer). -/
def removeTimer (ts : List (Int × Timer)) (i : Int) : List (Int × Timer) :=
  match ts with
  | [] => []
  | p :: rest => if p.1 = i then removeTimer rest i else p :: removeTimer rest i

/-- Keep only the entries with index strictly below r; the net effect of the
disarm loop in reindex_timers_after_removal (main.py lines 735-737). -/
def keepBelow (ts : List (Int × Timer)) (r : Int) : List (Int × Timer) :=
  match ts with
  | [] => []
  | p :: rest => if p.1 < r then p :: keepBelow rest r else keepBelow rest r

/-- Read an alert from the store by index (indices are validated before every
access in the source, so the default is never observed there). -/
def getAlert (l : List Alert) (i : Nat) : Alert := l.getD i default

/-- Scheduler.stop_alert_timer (main.py lines 479-490). -/
def stop_alert_timer (st : SchedState) (i : Int) : SchedState :=
  { st with alert_timers := removeTimer st.alert_timers i }

/-- Scheduler.schedule_alert_timer (main.py lines 492-537): stop any existing
timer for the index, skip disabled alerts and unparseable times, compute the
next trigger; when there is none, auto-disable a non-repeating past alert in
range; otherwise install a timer whose delay is the millisecond distance to
the trigger (skipping a negative delay). -/
def schedule_alert_timer (st : SchedState) (alert_data : Alert) (alert_index : Int)
    (now : QDateTime) : SchedState :=
  let st0 := stop_alert_timer st alert_index
  if alert_data.enabled = false then st0
  else
    match alert_data.time with
    | none => st0
    | some _ =>
      match calculate_next_trigger now alert_data with
      | none =>
        if alert_data.repeat_mode = REPEAT_OPTION_NONE ∧ 0 ≤ alert_index ∧
            alert_index < (st0.alerts.length : Int) then
          let live := getAlert st0.alerts alert_index.toNat
          { st0 with alerts := st0.alerts.set alert_index.toNat ({ live with enabled := false }) }
        else st0
      | some next_trigger_dt =>
        let interval := 1000 * (next_trigger_dt.toSecs - now.toSecs)
        if interval < 0 then st0
        else { st0 with alert_timers := st0.alert_timers ++ [(alert_index, ⟨alert_data, interval⟩)] }

/-- Scheduler._schedule_single_alert_instance (main.py lines 539-561): parse
the combined date-time of the temporary alert; if valid, add an ephemeral
timer with delay max(0, msecs to the instant). -/
def schedule_single_alert_instance (st : SchedState) (alert_data : Alert)
    (now : QDateTime) : SchedState :=
  match alert_data.date, alert_data.time with
  | some d, some t =>
    let adt : QDateTime := ⟨d, t⟩
    let interval := max 0 (1000 * (adt.toSecs - now.toSecs))
    { st with temporary_timers := st.temporary_timers ++ [⟨alert_data, interval⟩] }
  | _, _ => st

/-- Scheduler.trigger_alert (main.py lines 679-720).  The second component of
the result is the list of alerts handed to the Presenter
(ui_manager.show_alert_overlay) during the call.  Index -1 marks an
ephemeral alert: present the snapshot, touch no state.  Otherwise re-fetch
the live alert: a stale index or a now-disabled alert is discarded and its
timer entry removed; otherwise the live record is presented and the alert is
either auto-disabled (no repeat) or rescheduled. -/
def trigger_alert (st : SchedState) (alert_data : Alert) (alert_index : Int)
    (now : QDateTime) : SchedState × List Alert :=
  if alert_index = -1 then
    (st, [alert_data])
  else if 0 ≤ alert_index ∧ alert_index < (st.alerts.length : Int) then
    let idx := alert_index.toNat
    let current_alert_config := getAlert st.alerts idx
    if current_alert_config.enabled = false then
      (stop_alert_timer st alert_index, [])
    else if current_alert_config.repeat_mode = REPEAT_OPTION_NONE then
      let st1 : SchedState :=
        { st with alerts := st.alerts.set idx ({ current_alert_config with enabled := false }) }
      (stop_alert_timer st1 alert_index, [current_alert_config])
    else
      (schedule_alert_timer st current_alert_config alert_index now, [current_alert_config])
  else
    (stop_alert_timer st alert_index, [])

/-- Scheduler._handle_temporary_alert_trigger (main.py lines 563-580): fire
the ephemeral alert through trigger_alert with index -1, then remove the
fired timer from the ephemeral set. -/
def handle_temporary_alert_trigger (st : SchedState) (alert_data : Alert) (tmr : Timer)
    (now : QDateTime) : SchedState × List Alert :=
  let r := trigger_alert st alert_data (-1) now
  ({ r.1 with temporary_timers := r.1.temporary_timers.erase tmr }, r.2)

/-- The rescheduling loop of reindex_timers_after_removal (main.py lines
741-746): walk the given indices in order, re-arming each enabled alert at
its (new) index, reading the live store at every step. -/
def reindexLoop (now : QDateTime) (st : SchedState) (idxs : List Nat) : SchedState :=
  match idxs with
  | [] => st
  | j :: rest =>
    let a := getAlert st.alerts j
    let st2 := if a.enabled then schedule_alert_timer st a (j : Int) now else st
    reindexLoop now st2 rest

/-- Scheduler.reindex_timers_after_removal (main.py lines 722-746), called
after the store entry has been popped: drop every timer entry with index ≥
the removal point, then re-arm indices removed .. new length - 1. -/
def reindex_timers_after_removal (st : SchedState) (removed : Nat) (now : QDateTime) :
    SchedState :=
  let st1 : SchedState := { st with alert_timers := keepBelow st.alert_timers (removed : Int) }
  reindexLoop now st1 (List.range' removed (st.alerts.length - removed))

/-! ## The delay (snooze) flow -/

/-- Deduplication of the presented snapshots in delay_alerts (main.py lines
765-774): the dict keyed by the canonical JSON serialisation keeps the first
instance of each structurally equal alert, in encounter order. -/
def dedupAux (acc : List Alert) : List Alert → List Alert
  | [] => acc
  | a :: rest => if a ∈ acc then dedupAux acc rest else dedupAux (acc ++ [a]) rest

/-- Unique alerts of a snapshot list, first occurrences, order preserved. -/
def dedupKeepFirst (l : List Alert) : List Alert := dedupAux [] l

/-- The temporary alert built for one delayed instance (main.py lines
780-788): original index forced to the -1 sentinel, repeat forced to No
Repeat, enabled forced to true, date and time set to the target instant. -/
def mkDelayedAlert (a : Alert) (target : QDateTime) : Alert :=
  { a with
    original_alert_index := some (-1)
    repeat_mode := REPEAT_OPTION_NONE
    enabled := true
    date := some target.date
    time := some target.time }

/-- The ephemeral timer that scheduling one delayed instance installs. -/
def mkDelayedTimer (a : Alert) (target now : QDateTime) : Timer :=
  ⟨mkDelayedAlert a target, max 0 (1000 * (target.toSecs - now.toSecs))⟩

/-- Scheduler.delay_alerts (main.py lines 748-793): given the snapshots of
the currently presented overlays, deduplicate them, and schedule one
ephemeral instance per unique alert at now + minutes.  With no active
overlay the call only posts a tray message and changes nothing. -/
def delay_alerts (st : SchedState) (active : List Alert) (minutes : Int)
    (now : QDateTime) : SchedState :=
  if active = [] then st
  else
    let target := now.addSecs (minutes * 60)
    (dedupKeepFirst active).foldl
      (fun s a0 => schedule_single_alert_instance s (mkDelayedAlert a0 target) now) st

/-! ## Derived description of arming

armOutcome describes the timer that one call of schedule_alert_timer
installs for its index: none when the alert is disabled, its time does not
parse, no next trigger exists, or the delay is negative; otherwise the
snapshot plus the millisecond delay.  The lemma schedule_lookup_self proves
that this matches schedule_alert_timer. -/

def armOutcome (a : Alert) (now : QDateTime) : Option Timer :=
  if a.enabled = false then none
  else
    match a.time with
    | none => none
    | some _ =>
      match calculate_next_trigger now a with
      | none => none
      | some dt =>
        let interval := 1000 * (dt.toSecs - now.toSecs)
        if interval < 0 then none else some ⟨a, interval⟩

/-! ## Dictionary lemmas -/

theorem lookupTimer_removeTimer_self (ts : List (Int × Timer)) (i : Int) :
    lookupTimer (removeTimer ts i) i = none := by
  induction ts with
  | nil => rfl
  | cons p rest ih =>
    by_cases hp : p.1 = i
    · simp [removeTimer, hp, ih]
    · simp [removeTimer, hp, lookupTimer, ih]

theorem lookupTimer_removeTimer_ne (ts : List (Int × Timer)) (i j : Int) (h : j ≠ i) :
    lookupTimer (removeTimer ts i) j = lookupTimer ts j := by
  induction ts with
  | nil => rfl
  | cons p rest ih =>
    have hij : ¬ (i = j) := by omega
    have hji : ¬ (j = i) := by omega
    by_cases hp : p.1 = i
    · simp [removeTimer, hp, lookupTimer, hij, ih]
    · by_cases hq : p.1 = j
      · simp [removeTimer, hp, hq, lookupTimer, hji]
      · simp [removeTimer, hp, hq, lookupTimer, ih]

theorem lookupTimer_append_single_ne (l : List (Int × Timer)) (i j : Int) (T : Timer)
    (h : j ≠ i) : lookupTimer (l ++ [(i, T)]) j = lookupTimer l j := by
  induction l with
  | nil =>
    have : i ≠ j := by omega
    simp [lookupTimer, this]
  | cons p rest ih =>
    by_cases hp : p.1 = j
    · simp [lookupTimer, hp]
    · simp [lookupTimer, hp, ih]

theorem lookupTimer_append_single_self (l : List (Int × Timer)) (i : Int) (T : Timer)
    (h : lookupTimer l i = none) : lookupTimer (l ++ [(i, T)]) i = some T := by
  induction l with
  | nil => simp [lookupTimer]
  | cons p rest ih =>
    by_cases hp : p.1 = i
    · simp [lookupTimer, hp] at h
    · simp [lookupTimer, hp] at h ⊢
      exact ih h

theorem lookupTimer_keepBelow_ge (ts : List (Int × Timer)) (r j : Int) (h : r ≤ j) :
    lookupTimer (keepBelow ts r) j = none := by
  induction ts with
  | nil => rfl
  | cons p rest ih =>
    by_cases hp : p.1 < r
    · have hpj : p.1 ≠ j := by omega
      simp [keepBelow, hp, lookupTimer, hpj, ih]
    · simp [keepBelow, hp, ih]

theorem lookupTimer_keepBelow_lt (ts : List (Int × Timer)) (r j : Int) (h : j < r) :
    lookupTimer (keepBelow ts r) j = lookupTimer ts j := by
  induction ts with
  | nil => rfl
  | cons p rest ih =>
    by_cases hp : p.1 < r
    · by_cases hq : p.1 = j
      · simp [keepBelow, hp, hq, lookupTimer, h]
      · simp [keepBelow, hp, hq, lookupTimer, ih]
    · have hpj : p.1 ≠ j := by omega
      simp [keepBelow, hp, lookupTimer, hpj, ih]

/-! ## Frame lemmas for schedule_alert_timer -/

theorem schedule_lookup_self (st : SchedState) (a : Alert) (i : Int) (now : QDateTime) :
    lookupTimer (schedule_alert_timer st a i now).alert_timers i = armOutcome a now := by
  cases he : a.enabled with
  | false => simp [schedule_alert_timer, armOutcome, stop_alert_timer, he,
      lookupTimer_removeTimer_self]
  | true =>
    cases ht : a.time with
    | none => simp [schedule_alert_timer, armOutcome, stop_alert_timer, he, ht,
        lookupTimer_removeTimer_self]
    | some t =>
      cases hc : calculate_next_trigger now a with
      | none =>
        simp only [schedule_alert_timer, armOutcome, stop_alert_timer, he, ht, hc]
        simp only [if_neg (by simp : ¬ (true = false))]
        split_ifs <;> simp [lookupTimer_removeTimer_self]
      | some dt =>
        simp only [schedule_alert_timer, armOutcome, stop_alert_timer, he, ht, hc]
        simp only [if_neg (by simp : ¬ (true = false))]
        split_ifs with h2
        · simp [lookupTimer_removeTimer_self]
        · dsimp only
          exact lookupTimer_append_single_self _ _ _ (lookupTimer_removeTimer_self st.alert_timers i)

theorem schedule_lookup_ne (st : SchedState) (a : Alert) (i : Int) (now : QDateTime)
    (j : Int) (h : j ≠ i) :
    lookupTimer (schedule_alert_timer st a i now).alert_timers j
      = lookupTimer st.alert_timers j := by
  cases he : a.enabled with
  | false => simp [schedule_alert_timer, stop_alert_timer, he,
      lookupTimer_removeTimer_ne _ _ _ h]
  | true =>
    cases ht : a.time with
    | none => simp [schedule_alert_timer, stop_alert_timer, he, ht,
        lookupTimer_removeTimer_ne _ _ _ h]
    | some t =>
      cases hc : calculate_next_trigger now a with
      | none =>
        simp only [schedule_alert_timer, stop_alert_timer, he, ht, hc]
        simp only [if_neg (by simp : ¬ (true = false))]
        split_ifs <;> simp [lookupTimer_removeTimer_ne _ _ _ h]
      | some dt =>
        simp only [schedule_alert_timer, stop_alert_timer, he, ht, hc]
        simp only [if_neg (by simp : ¬ (true = false))]
        split_ifs with h2
        · simp [lookupTimer_removeTimer_ne _ _ _ h]
        · simp only []
          rw [lookupTimer_append_single_ne _ _ _ _ h, lookupTimer_removeTimer_ne _ _ _ h]

theorem schedule_alerts_length (st : SchedState) (a : Alert) (i : Int) (now : QDateTime) :
    (schedule_alert_timer st a i now).alerts.length = st.alerts.length := by
  cases he : a.enabled with
  | false => simp [schedule_alert_timer, stop_alert_timer, he]
  | true =>
    cases ht : a.time with
    | none => simp [schedule_alert_timer, stop_alert_timer, he, ht]
    | some t =>
      cases hc : calculate_next_trigger now a with
      | none =>
        simp only [schedule_alert_timer, stop_alert_timer, he, ht, hc]
        simp only [if_neg (by simp : ¬ (true = false))]
        split_ifs <;> simp
      | some dt =>
        simp only [schedule_alert_timer, stop_alert_timer, he, ht, hc]
        simp only [if_neg (by simp : ¬ (true = false))]
        split_ifs <;> simp

theorem getAlert_set_ne (l : List Alert) (m k : Nat) (v : Alert) (h : k ≠ m) :
    getAlert (l.set m v) k = getAlert l k := by
  unfold getAlert
  simp only [List.getD_eq_getElem?_getD, List.getElem?_set_ne (by omega : m ≠ k)]

theorem getAlert_schedule_ne (st : SchedState) (a : Alert) (i : Int) (now : QDateTime)
    (k : Nat) (h : (k : Int) ≠ i) :
    getAlert (schedule_alert_timer st a i now).alerts k = getAlert st.alerts k := by
  cases he : a.enabled with
  | false => simp [schedule_alert_timer, stop_alert_timer, he]
  | true =>
    cases ht : a.time with
    | none => simp [schedule_alert_timer, stop_alert_timer, he, ht]
    | some t =>
      cases hc : calculate_next_trigger now a with
      | none =>
        simp only [schedule_alert_timer, stop_alert_timer, he, ht, hc]
        simp only [if_neg (by simp : ¬ (true = false))]
        split_ifs with h2
        · have hk : k ≠ i.toNat := by omega
          simp [getAlert_set_ne _ _ _ _ hk]
        · rfl
      | some dt =>
        simp only [schedule_alert_timer, stop_alert_timer, he, ht, hc]
        simp only [if_neg (by simp : ¬ (true = false))]
        split_ifs <;> rfl

theorem schedule_temp_eq (st : SchedState) (a : Alert) (i : Int) (now : QDateTime) :
    (schedule_alert_timer st a i now).temporary_timers = st.temporary_timers := by
  cases he : a.enabled with
  | false => simp [schedule_alert_timer, stop_alert_timer, he]
  | true =>
    cases ht : a.time with
    | none => simp [schedule_alert_timer, stop_alert_timer, he, ht]
    | some t =>
      cases hc : calculate_next_trigger now a with
      | none =>
        simp only [schedule_alert_timer, stop_alert_timer, he, ht, hc]
        simp only [if_neg (by simp : ¬ (true = false))]
        split_ifs <;> rfl
      | some dt =>
        simp only [schedule_alert_timer, stop_alert_timer, he, ht, hc]
        simp only [if_neg (by simp : ¬ (true = false))]
        split_ifs <;> rfl

theorem armOutcome_disabled (a : Alert) (now : QDateTime) (h : a.enabled = false) :
    armOutcome a now = none := by
  unfold armOutcome
  simp [h]

/-! ## Claim C1: interval recurrence -/

/-- The spec scenario instant, 12:05:00 (= 43500 s) on 2025-06-01. -/
def c1_now : QDateTime := ⟨⟨2025, 6, 1⟩, 43500⟩

/-- An alert carrying an interval-style repeat mode.  The data model of
main.py has no interval recurrence and no minutes field at all
(REPEAT_OPTIONS, lines 84-88), so the closest representable alert stores an
unrecognised repeat string; its start instant is now − 185 minutes
(09:00:00 on the same day). -/
def c1_alert : Alert :=
  ⟨true, some ⟨2025, 6, 1⟩, some 32400, "Interval", "", [], 1, "Main", none⟩

/-- The trigger the claim expects: start + 240 minutes = 13:00:00. -/
def c1_claimed : QDateTime := ⟨⟨2025, 6, 1⟩, 46800⟩

/-- C1, counterexample: for the claim scenario (interval 60 min, start =
now − 185 min) the claim demands calculate_next_trigger = start + 240 min
and a timer armed with that delay.  The code has no Interval repeat mode:
the calculator returns none for the unrecognised mode (falling through to
main.py line 676) and schedule_alert_timer arms nothing. -/
theorem C1_counterexample :
    calculate_next_trigger c1_now c1_alert = none ∧
    ¬ calculate_next_trigger c1_now c1_alert = some c1_claimed ∧
    lookupTimer (schedule_alert_timer ⟨[c1_alert], [], []⟩ c1_alert 0 c1_now).alert_timers 0
      = none :=
  ⟨by decide, by decide, by decide⟩

/-- C1, amended: Interval recurrence is not supported.  REPEAT_OPTIONS
contains only No Repeat, Daily, Weekly and Monthly; for an alert whose
repeat mode is not one of these (such as an interval-style mode),
calculate_next_trigger returns none and schedule_alert_timer installs no
timer. -/
theorem C1_amended_unknown_repeat (now : QDateTime) (a : Alert)
    (h : a.repeat_mode ∉ REPEAT_OPTIONS) :
    calculate_next_trigger now a = none ∧
    ∀ st i, lookupTimer (schedule_alert_timer st a i now).alert_timers i = none := by
  simp only [REPEAT_OPTIONS, List.mem_cons, List.not_mem_nil, or_false, not_or] at h
  obtain ⟨h1, h2, h3, h4⟩ := h
  have hcalc : calculate_next_trigger now a = none := by
    unfold calculate_next_trigger
    cases ht : a.time with
    | none => rfl
    | some t => simp [h1, h2, h3, h4]
  refine ⟨hcalc, fun st i => ?_⟩
  rw [schedule_lookup_self]
  cases he : a.enabled with
  | false => simp [armOutcome, he]
  | true =>
    cases ht : a.time with
    | none => simp [armOutcome, he, ht]
    | some t => simp [armOutcome, he, ht, hcalc]

/-- C1, witness for the amended theorem at the scenario input. -/
theorem C1_witness :
    calculate_next_trigger c1_now c1_alert = none ∧
    lookupTimer (schedule_alert_timer ⟨[c1_alert], [], []⟩ c1_alert 0 c1_now).alert_timers 0
      = none :=
  ⟨(C1_amended_unknown_repeat c1_now c1_alert (by decide)).1,
   (C1_amended_unknown_repeat c1_now c1_alert (by decide)).2 ⟨[c1_alert], [], []⟩ 0⟩

/-! ## Claim C8: one-shot next trigger -/

/-- C8: for a None-recurrence alert with parseable time and start date,
calculate_next_trigger is none exactly when the combined start instant is
strictly before now, and returns that exact instant when it is ≥ now
(main.py lines 614-617). -/
theorem C8_oneshot_none_iff_past (now : QDateTime) (a : Alert) (t : Int) (d : Ymd)
    (hr : a.repeat_mode = REPEAT_OPTION_NONE) (ht : a.time = some t) (hd : a.date = some d) :
    (calculate_next_trigger now a = none ↔ QDateTime.toSecs ⟨d, t⟩ < now.toSecs) ∧
    (now.toSecs ≤ QDateTime.toSecs ⟨d, t⟩ → calculate_next_trigger now a = some ⟨d, t⟩) := by
  unfold calculate_next_trigger
  simp only [ht, hr, hd, eq_self_iff_true, if_true]
  refine ⟨?_, fun h2 => by rw [if_pos h2]⟩
  split_ifs with hle
  · exact iff_of_false (by simp) (by omega)
  · exact iff_of_true rfl (by omega)

/-- The alert of the spec scenario: one-shot at 2025-01-01 09:00:00. -/
def c8_alert : Alert :=
  ⟨true, some ⟨2025, 1, 1⟩, some 32400, REPEAT_OPTION_NONE, "", [], 1, "Main", none⟩

/-- C8, witness: the one-shot is exhausted for now = 2025-06-01 and is
returned as-is for now = 2024-06-01. -/
theorem C8_witness :
    calculate_next_trigger ⟨⟨2025, 6, 1⟩, 0⟩ c8_alert = none ∧
    calculate_next_trigger ⟨⟨2024, 6, 1⟩, 0⟩ c8_alert = some ⟨⟨2025, 1, 1⟩, 32400⟩ := by
  constructor
  · exact (C8_oneshot_none_iff_past ⟨⟨2025, 6, 1⟩, 0⟩ c8_alert 32400 ⟨2025, 1, 1⟩
      rfl rfl rfl).1.mpr (by decide)
  · exact (C8_oneshot_none_iff_past ⟨⟨2024, 6, 1⟩, 0⟩ c8_alert 32400 ⟨2025, 1, 1⟩
      rfl rfl rfl).2 (by decide)

/-! ## Claim C3: timer duration ceiling -/

/-- A one-shot alert 364 days in the future of c3_now. -/
def c3_alert : Alert :=
  ⟨true, some ⟨2025, 12, 31⟩, some 0, REPEAT_OPTION_NONE, "", [], 1, "Main", none⟩

/-- Reference instant for the C3 counterexample. -/
def c3_now : QDateTime := ⟨⟨2025, 1, 1⟩, 0⟩

/-- C3, counterexample: the claim requires any arm whose delay exceeds the
timer ceiling (2^31 − 1 ms for a 32-bit QTimer) to arm an intermediate
wake-up at the ceiling instead.  Arming an alert 364 days away installs a
timer whose delay of 31449600000 ms is passed directly to the timer and
exceeds the ceiling; no chaining logic exists anywhere in main.py. -/
theorem C3_counterexample :
    (lookupTimer (schedule_alert_timer ⟨[c3_alert], [], []⟩ c3_alert 0 c3_now).alert_timers
        0).map Timer.interval = some 31449600000 ∧
    ¬ (31449600000 : Int) ≤ 2147483647 :=
  ⟨by decide, by decide⟩

/-- C3, amended: no ceiling handling exists.  schedule_alert_timer passes
the full computed delay (msecs from now to the trigger) directly to the
installed timer, whose timeout invokes the fire logic, and
_schedule_single_alert_instance likewise passes max(0, msecs) directly;
neither chains intermediate wake-ups. -/
theorem C3_amended_delay_passed_directly :
    (∀ st a i now T,
        lookupTimer (schedule_alert_timer st a i now).alert_timers i = some T →
        ∃ dt, calculate_next_trigger now a = some dt ∧
          T.interval = 1000 * (dt.toSecs - now.toSecs) ∧ T.payload = a) ∧
    (∀ st a now d t, a.date = some d → a.time = some t →
        (schedule_single_alert_instance st a now).temporary_timers
          = st.temporary_timers ++
              [⟨a, max 0 (1000 * (QDateTime.toSecs ⟨d, t⟩ - now.toSecs))⟩]) := by
  constructor
  · intro st a i now T hT
    rw [schedule_lookup_self] at hT
    unfold armOutcome at hT
    cases he : a.enabled <;> rw [he] at hT
    · simp at hT
    · rw [if_neg (by simp : ¬ (true = false))] at hT
      cases ht : a.time <;> rw [ht] at hT
      · simp at hT
      · cases hc : calculate_next_trigger now a <;> rw [hc] at hT
        · simp at hT
        · rename_i dt
          dsimp only at hT
          split_ifs at hT with h2
          have hT2 : (⟨a, 1000 * (dt.toSecs - now.toSecs)⟩ : Timer) = T :=
            Option.some.inj hT
          exact ⟨dt, rfl, by rw [← hT2], by rw [← hT2]⟩
  · intro st a now d t hd ht
    simp [schedule_single_alert_instance, hd, ht]

/-- C3, witness for the amended theorem at concrete inputs. -/
theorem C3_witness :
    (∃ dt, calculate_next_trigger c3_now c3_alert = some dt ∧
        (⟨c3_alert, 31449600000⟩ : Timer).interval = 1000 * (dt.toSecs - c3_now.toSecs) ∧
        (⟨c3_alert, 31449600000⟩ : Timer).payload = c3_alert) ∧
    (schedule_single_alert_instance ⟨[], [], []⟩ c3_alert c3_now).temporary_timers
      = [] ++ [⟨c3_alert, max 0 (1000 * (QDateTime.toSecs ⟨⟨2025, 12, 31⟩, 0⟩ - c3_now.toSecs))⟩] :=
  ⟨C3_amended_delay_passed_directly.1 ⟨[c3_alert], [], []⟩ c3_alert 0 c3_now
      ⟨c3_alert, 31449600000⟩ (by decide),
   C3_amended_delay_passed_directly.2 ⟨[], [], []⟩ c3_alert c3_now ⟨2025, 12, 31⟩ 0 rfl rfl⟩

/-! ## Claim C5: arming when no trigger exists -/

/-- C5: when arming reaches the calculator (enabled alert, parseable time)
and no next trigger exists, a non-repeating alert with a valid index is
auto-disabled in the store (the persisted write of main.py lines 518-522),
while for any repeating alert the store is left completely unchanged; in
both cases no timer is installed (only the stale entry for this index is
removed, as arming always does first). -/
theorem C5_arm_none_asymmetry (st : SchedState) (a : Alert) (i : Int) (now : QDateTime)
    (t : Int) (hen : a.enabled = true) (ht : a.time = some t)
    (hnone : calculate_next_trigger now a = none) :
    (a.repeat_mode = REPEAT_OPTION_NONE → 0 ≤ i → i < (st.alerts.length : Int) →
      (schedule_alert_timer st a i now).alerts
        = st.alerts.set i.toNat ({ getAlert st.alerts i.toNat with enabled := false }) ∧
      (schedule_alert_timer st a i now).alert_timers = removeTimer st.alert_timers i) ∧
    (a.repeat_mode ≠ REPEAT_OPTION_NONE →
      (schedule_alert_timer st a i now).alerts = st.alerts ∧
      (schedule_alert_timer st a i now).alert_timers = removeTimer st.alert_timers i ∧
      lookupTimer (schedule_alert_timer st a i now).alert_timers i = none) := by
  simp only [schedule_alert_timer, stop_alert_timer, hen, ht, hnone]
  simp only [if_neg (by simp : ¬ (true = false))]
  constructor
  · intro h1 h2 h3
    rw [if_pos ⟨h1, h2, h3⟩]
    exact ⟨rfl, rfl⟩
  · intro h1
    rw [if_neg (by simp [h1])]
    exact ⟨rfl, rfl, lookupTimer_removeTimer_self _ _⟩

/-- A weekly alert with an empty weekday set: a configuration error, the
calculator finds no trigger. -/
def c5_weekly : Alert :=
  ⟨true, some ⟨2025, 1, 1⟩, some 32400, REPEAT_OPTION_WEEKLY, "", [], 1, "Main", none⟩

/-- C5, witness: the exhausted one-shot c8_alert gets disabled in the store;
the misconfigured weekly alert c5_weekly leaves the store untouched and
arms nothing. -/
theorem C5_witness :
    ((schedule_alert_timer ⟨[c8_alert], [], []⟩ c8_alert 0 ⟨⟨2025, 6, 1⟩, 0⟩).alerts
        = [c8_alert].set 0 ({ getAlert [c8_alert] 0 with enabled := false }) ∧
      (schedule_alert_timer ⟨[c8_alert], [], []⟩ c8_alert 0 ⟨⟨2025, 6, 1⟩, 0⟩).alert_timers
        = removeTimer [] 0) ∧
    ((schedule_alert_timer ⟨[c5_weekly], [], []⟩ c5_weekly 0 ⟨⟨2025, 6, 1⟩, 0⟩).alerts
        = [c5_weekly] ∧
      (schedule_alert_timer ⟨[c5_weekly], [], []⟩ c5_weekly 0 ⟨⟨2025, 6, 1⟩, 0⟩).alert_timers
        = removeTimer [] 0 ∧
      lookupTimer (schedule_alert_timer ⟨[c5_weekly], [], []⟩ c5_weekly 0
          ⟨⟨2025, 6, 1⟩, 0⟩).alert_timers 0 = none) :=
  ⟨(C5_arm_none_asymmetry ⟨[c8_alert], [], []⟩ c8_alert 0 ⟨⟨2025, 6, 1⟩, 0⟩ 32400
      rfl rfl (by decide)).1 rfl (by decide) (by decide),
   (C5_arm_none_asymmetry ⟨[c5_weekly], [], []⟩ c5_weekly 0 ⟨⟨2025, 6, 1⟩, 0⟩ 32400
      rfl rfl (by decide)).2 (by decide)⟩

/-! ## Claim C2: calculator contract -/

/-- Parse results of date strings are calendar dates. -/
def dateOk : Option Ymd → Prop
  | none => True
  | some d => d.valid

instance : (o : Option Ymd) → Decidable (dateOk o)
  | none => Decidable.isTrue True.intro
  | some d => inferInstanceAs (Decidable d.valid)

/-- Parse results of HH:mm:ss time strings lie in [0, 86400). -/
def timeOk : Option Int → Prop
  | none => True
  | some t => 0 ≤ t ∧ t < 86400

instance : (o : Option Int) → Decidable (timeOk o)
  | none => Decidable.isTrue True.intro
  | some t => inferInstanceAs (Decidable (0 ≤ t ∧ t < 86400))

/-- Well-formedness of an alert record: every alert the program can build
satisfies this, because the date and time fields are parse results. -/
def Alert.wf (a : Alert) : Prop := dateOk a.date ∧ timeOk a.time

instance (a : Alert) : Decidable a.wf := by unfold Alert.wf; infer_instance

theorem exists_of_findSome_eq_some {α β : Type} (f : α → Option β) :
    ∀ (l : List α) (v : β), l.findSome? f = some v → ∃ x, x ∈ l ∧ f x = some v := by
  intro l
  induction l with
  | nil => intro v h; simp [List.findSome?] at h
  | cons x xs ih =>
    intro v h
    rw [List.findSome?_cons] at h
    cases hfx : f x with
    | some b =>
      simp only [hfx] at h
      exact ⟨x, by simp, by rw [hfx, h]⟩
    | none =>
      simp only [hfx] at h
      obtain ⟨y, hy, hfy⟩ := ih v h
      exact ⟨y, by simp [hy], hfy⟩

theorem monthlyNext_ge (now : QDateTime) (sd cmf : Ymd) (dom t : Int) :
    ∀ (fuel : Nat) (ty tm : Int) (dt : QDateTime),
      monthlyNext fuel ty tm dom t sd cmf now = some dt → now.toSecs ≤ dt.toSecs := by
  intro fuel
  induction fuel with
  | zero => intro ty tm dt h; simp [monthlyNext] at h
  | succ n ih =>
    intro ty tm dt h
    unfold monthlyNext at h
    dsimp only at h
    split_ifs at h <;>
      first
        | (obtain rfl := Option.some.inj h; assumption)
        | exact ih _ _ _ h

/-- C2: the substantive part of the calculator contract.  In this embedding
calculate_next_trigger is a pure function of (now, alert), which renders
determinism and freedom from side effects by construction; the theorem
proves that whenever it returns an instant, that instant is ≥ now, for
every well-formed now and alert (well-formedness holds for every value the
program can construct, since date and time fields are parse results). -/
theorem C2_result_ge_now (now : QDateTime) (a : Alert) (hn : now.wf) (ha : a.wf) :
    ∀ dt, calculate_next_trigger now a = some dt → now.toSecs ≤ dt.toSecs := by
  obtain ⟨hnv, hnt0, hnt1⟩ := hn
  obtain ⟨had, hat⟩ := ha
  intro dt h
  unfold calculate_next_trigger at h
  cases ht : a.time with
  | none => rw [ht] at h; simp at h
  | some t =>
    rw [ht] at h
    dsimp only at h
    rw [ht] at hat
    have htb : 0 ≤ t ∧ t < 86400 := hat
    by_cases hr : a.repeat_mode = REPEAT_OPTION_NONE
    · rw [if_pos hr] at h
      cases hd : a.date with
      | none => rw [hd] at h; simp at h
      | some d =>
        simp only [hd] at h
        split_ifs at h with hle
        obtain rfl := Option.some.inj h
        exact hle
    · rw [if_neg hr] at h
      have hsdv : (match a.date with | some d => d | none => now.date).valid := by
        cases hd : a.date with
        | none => exact hnv
        | some d => rw [hd] at had; exact had
      generalize hgen : (match a.date with | some d => d | none => now.date) = sd at h hsdv
      have hcdv : (if toDayNumber now.date < toDayNumber sd then sd else now.date).valid := by
        split_ifs
        · exact hsdv
        · exact hnv
      have hcdge : toDayNumber now.date
          ≤ toDayNumber (if toDayNumber now.date < toDayNumber sd then sd else now.date) := by
        split_ifs with hx
        · omega
        · omega
      generalize hcd : (if toDayNumber now.date < toDayNumber sd then sd else now.date) = cd
        at h hcdv hcdge
      by_cases hr2 : a.repeat_mode = REPEAT_OPTION_DAILY
      · rw [if_pos hr2] at h
        split_ifs at h with hle
        · obtain rfl := Option.some.inj h
          exact hle
        · obtain rfl := Option.some.inj h
          have h1 := toDayNumber_addDays cd hcdv 1
          simp only [QDateTime.toSecs] at *
          omega
      · rw [if_neg hr2] at h
        by_cases hr3 : a.repeat_mode = REPEAT_OPTION_WEEKLY
        · rw [if_pos hr3] at h
          by_cases hemp : (a.weekdays.filterMap weekdayNum) = []
          · rw [if_pos hemp] at h
            simp at h
          · rw [if_neg hemp] at h
            obtain ⟨i, hi, hfi⟩ := exists_of_findSome_eq_some _ _ _ h
            split_ifs at hfi with hc1 hc2
            obtain rfl := Option.some.inj hfi
            exact hc2
        · rw [if_neg hr3] at h
          by_cases hr4 : a.repeat_mode = REPEAT_OPTION_MONTHLY
          · rw [if_pos hr4] at h
            by_cases hdom : 1 ≤ a.day_of_month ∧ a.day_of_month ≤ 31
            · rw [if_pos hdom] at h
              exact monthlyNext_ge now sd ⟨cd.year, cd.month, 1⟩ a.day_of_month t 25
                cd.year cd.month dt h
            · rw [if_neg hdom] at h
              simp at h
          · rw [if_neg hr4] at h
            simp at h

/-- C2, witness: the contract at a concrete well-formed input (the daily
alert of the spec scenarios at noon). -/
theorem C2_witness :
    QDateTime.toSecs ⟨⟨2025, 6, 1⟩, 43200⟩
      ≤ QDateTime.toSecs ⟨⟨2025, 6, 2⟩, 32400⟩ :=
  C2_result_ge_now ⟨⟨2025, 6, 1⟩, 43200⟩
    ⟨true, some ⟨2025, 1, 1⟩, some 32400, REPEAT_OPTION_DAILY, "", [], 1, "Main", none⟩
    (by decide) (by decide) ⟨⟨2025, 6, 2⟩, 32400⟩ (by decide)

/-! ## Claim C9: monthly clamping in February -/

theorem toDayNumber_jan_le_feb (y0 y d0 dn : Int) (hy : y0 ≤ y) (hd0 : d0 ≤ 31)
    (hdn : 1 ≤ dn) : toDayNumber ⟨y0, 1, d0⟩ ≤ toDayNumber ⟨y, 2, dn⟩ := by
  norm_num [toDayNumber]
  omega

theorem toDayNumber_day_mono (y m d1 d2 : Int) (h : d1 ≤ d2) :
    toDayNumber ⟨y, m, d1⟩ ≤ toDayNumber ⟨y, m, d2⟩ := by
  norm_num [toDayNumber]
  omega

/-- One unfolding of the month-walking loop. -/
theorem monthlyNext_succ (fuel : Nat) (ty tm dom alert_time : Int) (sd cmf : Ymd)
    (now : QDateTime) :
    monthlyNext (fuel + 1) ty tm dom alert_time sd cmf now
      = (if toDayNumber sd ≤ toDayNumber ⟨ty, tm, min dom (daysInMonth ty tm)⟩ ∧
            toDayNumber cmf ≤ toDayNumber ⟨ty, tm, min dom (daysInMonth ty tm)⟩ then
          if now.toSecs ≤ QDateTime.toSecs ⟨⟨ty, tm, min dom (daysInMonth ty tm)⟩, alert_time⟩ then
            some ⟨⟨ty, tm, min dom (daysInMonth ty tm)⟩, alert_time⟩
          else if tm = 12 then monthlyNext fuel (ty + 1) 1 dom alert_time sd cmf now
          else monthlyNext fuel ty (tm + 1) dom alert_time sd cmf now
        else if tm = 12 then monthlyNext fuel (ty + 1) 1 dom alert_time sd cmf now
        else monthlyNext fuel ty (tm + 1) dom alert_time sd cmf now) := rfl

/-- The alert of the claim scenario: Monthly on day 31, anchored
2025-01-15, alert time 09:00:00. -/
def c9_alert : Alert :=
  ⟨true, some ⟨2025, 1, 15⟩, some 32400, REPEAT_OPTION_MONTHLY, "", [], 31, "Main", none⟩

/-- C9, counterexample: the claim says that for every now in February of a
year at or after the start year, the result is an instant in February
(the 28th, or 29th in a leap year), never a date in March.  For now =
2025-02-28 23:00:00 (February, after the alert time on the clamped day) the
code walks past February and returns March 31. -/
theorem C9_counterexample :
    calculate_next_trigger ⟨⟨2025, 2, 28⟩, 82800⟩ c9_alert
      = some ⟨⟨2025, 3, 31⟩, 32400⟩ ∧
    (⟨⟨2025, 3, 31⟩, 32400⟩ : QDateTime).date.month = 3 :=
  ⟨by decide, by decide⟩

/-- C9, amended: under the additional hypothesis that now has not yet
passed the alert instant on February's clamped day (now ≤ (Feb last day,
alert time)), the claim holds: for a Monthly alert with dayOfMonth 31
anchored in January, calculate_next_trigger returns the instant on
February's last day — the 28th, or the 29th in a leap year — never a date
in March.  (When now in February is past that instant the code returns
March 31 instead, as the counterexample shows.) -/
theorem C9_amended_monthly_clamp_feb (a : Alert) (now : QDateTime) (t y0 d0 y dn : Int)
    (hr : a.repeat_mode = REPEAT_OPTION_MONTHLY) (hdom : a.day_of_month = 31)
    (ht : a.time = some t)
    (hd : a.date = some ⟨y0, 1, d0⟩) (hd0 : 1 ≤ d0 ∧ d0 ≤ 31)
    (hnowd : now.date = ⟨y, 2, dn⟩) (hdn : 1 ≤ dn ∧ dn ≤ daysInMonth y 2)
    (hy : y0 ≤ y)
    (hle : now.toSecs ≤ QDateTime.toSecs ⟨⟨y, 2, daysInMonth y 2⟩, t⟩) :
    calculate_next_trigger now a = some ⟨⟨y, 2, daysInMonth y 2⟩, t⟩ ∧
    daysInMonth y 2 = (if isLeapYear y then 29 else 28) := by
  have hdim : daysInMonth y 2 = 28 ∨ daysInMonth y 2 = 29 := by
    norm_num [daysInMonth]
    exact Or.symm (Classical.em _)
  have hmin : min (31 : Int) (daysInMonth y 2) = daysInMonth y 2 := by omega
  constructor
  · unfold calculate_next_trigger
    rw [ht]
    dsimp only
    rw [hr]
    rw [if_neg (by decide : ¬ (REPEAT_OPTION_MONTHLY = REPEAT_OPTION_NONE))]
    rw [hd]
    dsimp only
    rw [hnowd]
    rw [if_neg (show ¬ (toDayNumber (⟨y, 2, dn⟩ : Ymd) < toDayNumber (⟨y0, 1, d0⟩ : Ymd)) by
      have := toDayNumber_jan_le_feb y0 y d0 dn hy hd0.2 hdn.1
      omega)]
    rw [if_neg (by decide : ¬ (REPEAT_OPTION_MONTHLY = REPEAT_OPTION_DAILY))]
    rw [if_neg (by decide : ¬ (REPEAT_OPTION_MONTHLY = REPEAT_OPTION_WEEKLY))]
    rw [if_pos (by decide : REPEAT_OPTION_MONTHLY = REPEAT_OPTION_MONTHLY)]
    rw [hdom]
    rw [if_pos (by norm_num : (1 : Int) ≤ 31 ∧ (31 : Int) ≤ 31)]
    dsimp only
    rw [show (25 : Nat) = 24 + 1 from rfl, monthlyNext_succ]
    rw [hmin]
    rw [if_pos ⟨toDayNumber_jan_le_feb y0 y d0 (daysInMonth y 2) hy hd0.2 (by omega),
        toDayNumber_day_mono y 2 1 (daysInMonth y 2) (by omega)⟩]
    rw [if_pos hle]
  · norm_num [daysInMonth]

/-- C9, witness for the amended theorem: now = 2025-02-10 12:00, the
trigger is 2025-02-28 09:00:00 (2025 is not a leap year). -/
theorem C9_witness :
    calculate_next_trigger ⟨⟨2025, 2, 10⟩, 43200⟩ c9_alert
      = some ⟨⟨2025, 2, 28⟩, 32400⟩ := by
  have h := (C9_amended_monthly_clamp_feb c9_alert ⟨⟨2025, 2, 10⟩, 43200⟩ 32400
    2025 15 2025 10 rfl rfl rfl rfl (by decide) rfl (by decide) (by decide) (by decide)).1
  rwa [show daysInMonth 2025 2 = 28 from by decide] at h

/-! ## Claim C10: the weekly 8-day scan always finds a trigger -/

theorem weekdayNum_bounds (s : String) (v : Int) (h : weekdayNum s = some v) :
    1 ≤ v ∧ v ≤ 7 := by
  unfold weekdayNum at h
  split_ifs at h <;> simp_all <;> omega

theorem findSome_isSome_of_mem {α β : Type} (f : α → Option β) :
    ∀ (l : List α) (x : α), x ∈ l → (f x).isSome → (l.findSome? f).isSome := by
  intro l
  induction l with
  | nil => intro x hx; simp at hx
  | cons y ys ih =>
    intro x hx hfx
    rw [List.findSome?_cons]
    cases hfy : f y with
    | some b => simp
    | none =>
      rcases List.mem_cons.mp hx with rfl | hx2
      · rw [hfy] at hfx
        simp at hfx
      · exact ih x hx2 hfx

theorem weekday_index_exists (n w : Int) (h1 : 1 ≤ w) (h7 : w ≤ 7) :
    ∃ i : Nat, 1 ≤ i ∧ i ≤ 7 ∧ (n + i + 3) % 7 + 1 = w := by
  refine ⟨if (w - 4 - n) % 7 = 0 then 7 else ((w - 4 - n) % 7).toNat, ?_, ?_, ?_⟩ <;>
    split_ifs with hz <;> omega

/-- C10: for a Weekly alert with a parseable time and at least one valid
weekday abbreviation, calculate_next_trigger never returns none: the scan
over today plus the next 7 days from max(startDate, today) always reaches a
matching weekday whose combined instant is ≥ now, so the fall-through after
the loop (main.py line 645) is unreachable under this precondition. -/
theorem C10_weekly_never_none (now : QDateTime) (a : Alert) (t : Int)
    (hr : a.repeat_mode = REPEAT_OPTION_WEEKLY) (ht : a.time = some t)
    (htv : 0 ≤ t ∧ t < 86400) (hn : now.wf) (hdok : dateOk a.date)
    (hw : ∃ s, s ∈ a.weekdays ∧ (weekdayNum s).isSome) :
    (calculate_next_trigger now a).isSome := by
  obtain ⟨hnv, hnt0, hnt1⟩ := hn
  obtain ⟨s, hs, hsw⟩ := hw
  obtain ⟨w, hwv⟩ := Option.isSome_iff_exists.mp hsw
  have hwb := weekdayNum_bounds s w hwv
  have hwmem : w ∈ a.weekdays.filterMap weekdayNum := List.mem_filterMap.mpr ⟨s, hs, hwv⟩
  unfold calculate_next_trigger
  rw [ht]
  dsimp only
  rw [hr]
  rw [if_neg (by decide : ¬ (REPEAT_OPTION_WEEKLY = REPEAT_OPTION_NONE))]
  have hsdv : (match a.date with | some d => d | none => now.date).valid := by
    cases hd : a.date with
    | none => exact hnv
    | some d => rw [hd] at hdok; exact hdok
  generalize hgen : (match a.date with | some d => d | none => now.date) = sd at hsdv ⊢
  have hcdv : (if toDayNumber now.date < toDayNumber sd then sd else now.date).valid := by
    split_ifs
    · exact hsdv
    · exact hnv
  have hcdge : toDayNumber now.date
      ≤ toDayNumber (if toDayNumber now.date < toDayNumber sd then sd else now.date) := by
    split_ifs with hx <;> omega
  have hcdsd : toDayNumber sd
      ≤ toDayNumber (if toDayNumber now.date < toDayNumber sd then sd else now.date) := by
    split_ifs with hx <;> omega
  generalize hcd : (if toDayNumber now.date < toDayNumber sd then sd else now.date) = cd
    at hcdv hcdge hcdsd ⊢
  rw [if_neg (by decide : ¬ (REPEAT_OPTION_WEEKLY = REPEAT_OPTION_DAILY))]
  rw [if_pos (by decide : REPEAT_OPTION_WEEKLY = REPEAT_OPTION_WEEKLY)]
  rw [if_neg (List.ne_nil_of_mem hwmem)]
  obtain ⟨i, hi1, hi7, hieq⟩ := weekday_index_exists (toDayNumber cd) w hwb.1 hwb.2
  apply findSome_isSome_of_mem _ _ i (List.mem_range.mpr (by omega))
  have hadd : toDayNumber (addDays cd i) = toDayNumber cd + i := toDayNumber_addDays cd hcdv i
  have hdow : dayOfWeek (addDays cd i) = w := by
    unfold dayOfWeek
    rw [hadd]
    omega
  have hcond : dayOfWeek (addDays cd i) ∈ a.weekdays.filterMap weekdayNum ∧
      toDayNumber sd ≤ toDayNumber (addDays cd i) := by
    constructor
    · rw [hdow]
      exact hwmem
    · rw [hadd]
      omega
  rw [if_pos hcond]
  rw [if_pos (show now.toSecs ≤ QDateTime.toSecs ⟨addDays cd i, t⟩ by
    have h2 : QDateTime.toSecs ⟨addDays cd i, t⟩ = 86400 * (toDayNumber cd + i) + t := by
      unfold QDateTime.toSecs
      dsimp only
      rw [hadd]
    have h3 : now.toSecs = 86400 * toDayNumber now.date + now.time := rfl
    rw [h2, h3]
    omega)]
  simp

/-- C10, witness: the spec scenario (days = Mon, Fri; now = Wednesday
2025-06-04 noon) has a next trigger. -/
theorem C10_witness :
    (calculate_next_trigger ⟨⟨2025, 6, 4⟩, 43200⟩
      ⟨true, some ⟨2025, 1, 1⟩, some 32400, REPEAT_OPTION_WEEKLY, "", ["Mon", "Fri"], 1,
        "Main", none⟩).isSome :=
  C10_weekly_never_none ⟨⟨2025, 6, 4⟩, 43200⟩
    ⟨true, some ⟨2025, 1, 1⟩, some 32400, REPEAT_OPTION_WEEKLY, "", ["Mon", "Fri"], 1,
      "Main", none⟩ 32400 rfl rfl (by decide) (by decide) (by decide)
    ⟨"Mon", by decide, by decide⟩

/-! ## Claim C4: firing a regular timer -/

theorem getAlert_set_self (l : List Alert) (i : Nat) (v : Alert) (h : i < l.length) :
    getAlert (l.set i v) i = v := by
  unfold getAlert
  rw [List.getD_eq_getElem?_getD, List.getElem?_set_self (by simpa using h)]
  rfl

/-- C4: when a regular timer fires (index ≥ 0), the Engine re-fetches the
live alert.  A stale index or a now-disabled live alert yields no
presentation and only removes the timer entry for that index; otherwise the
live record — not the snapshot captured at arm time — is presented, and a
None-recurrence alert has its enabled flag flipped true→false in the store,
its timer entry removed, and (last conjunct) re-arming any disabled alert
never installs a timer, so it stays unarmed until an explicit re-enable. -/
theorem C4_fire_uses_live_state (st : SchedState) (a : Alert) (idx : Nat) (now : QDateTime) :
    (st.alerts.length ≤ idx →
      trigger_alert st a (idx : Int) now
        = ({ st with alert_timers := removeTimer st.alert_timers (idx : Int) }, [])) ∧
    (idx < st.alerts.length → (getAlert st.alerts idx).enabled = false →
      trigger_alert st a (idx : Int) now
        = ({ st with alert_timers := removeTimer st.alert_timers (idx : Int) }, [])) ∧
    (idx < st.alerts.length → (getAlert st.alerts idx).enabled = true →
      (trigger_alert st a (idx : Int) now).2 = [getAlert st.alerts idx] ∧
      ((getAlert st.alerts idx).repeat_mode = REPEAT_OPTION_NONE →
        (trigger_alert st a (idx : Int) now).1.alerts
          = st.alerts.set idx ({ getAlert st.alerts idx with enabled := false }) ∧
        lookupTimer (trigger_alert st a (idx : Int) now).1.alert_timers (idx : Int) = none ∧
        getAlert (trigger_alert st a (idx : Int) now).1.alerts idx
          = { getAlert st.alerts idx with enabled := false }) ∧
      ((getAlert st.alerts idx).repeat_mode ≠ REPEAT_OPTION_NONE →
        (trigger_alert st a (idx : Int) now).1
          = schedule_alert_timer st (getAlert st.alerts idx) (idx : Int) now)) ∧
    (∀ st2 a2 i2 now2, a2.enabled = false →
      (schedule_alert_timer st2 a2 i2 now2).alert_timers = removeTimer st2.alert_timers i2 ∧
      lookupTimer (schedule_alert_timer st2 a2 i2 now2).alert_timers i2 = none) := by
  refine ⟨?_, ?_, ?_, ?_⟩
  · intro h1
    unfold trigger_alert
    rw [if_neg (show ¬ ((idx : Int) = -1) by omega)]
    rw [if_neg (show ¬ (0 ≤ (idx : Int) ∧ (idx : Int) < (st.alerts.length : Int)) by omega)]
    rfl
  · intro h1 he
    unfold trigger_alert
    rw [if_neg (show ¬ ((idx : Int) = -1) by omega)]
    rw [if_pos (show 0 ≤ (idx : Int) ∧ (idx : Int) < (st.alerts.length : Int) by omega)]
    dsimp only
    rw [show ((idx : Int)).toNat = idx from by omega]
    rw [if_pos he]
    rfl
  · intro h1 he
    unfold trigger_alert
    rw [if_neg (show ¬ ((idx : Int) = -1) by omega)]
    rw [if_pos (show 0 ≤ (idx : Int) ∧ (idx : Int) < (st.alerts.length : Int) by omega)]
    dsimp only
    rw [show ((idx : Int)).toNat = idx from by omega]
    rw [if_neg (show ¬ ((getAlert st.alerts idx).enabled = false) by rw [he]; simp)]
    by_cases hrm : (getAlert st.alerts idx).repeat_mode = REPEAT_OPTION_NONE
    · rw [if_pos hrm]
      refine ⟨rfl, fun _ => ⟨rfl, ?_, ?_⟩, fun hcon => absurd hrm hcon⟩
      · exact lookupTimer_removeTimer_self _ _
      · exact getAlert_set_self _ _ _ h1
    · rw [if_neg hrm]
      exact ⟨rfl, fun hcon => absurd hcon hrm, fun _ => rfl⟩
  · intro st2 a2 i2 now2 h
    unfold schedule_alert_timer stop_alert_timer
    rw [if_pos h]
    exact ⟨rfl, lookupTimer_removeTimer_self _ _⟩

/-- A disabled one-shot alert used for the C4 witness. -/
def c4_off : Alert :=
  ⟨false, some ⟨2025, 1, 1⟩, some 32400, REPEAT_OPTION_NONE, "", [], 1, "Main", none⟩

/-- The C4 witness state: an enabled one-shot at index 0, a disabled alert
at index 1. -/
def c4_state : SchedState := ⟨[c8_alert, c4_off], [], []⟩

/-- C4, witness: stale index 5, disabled index 1, and enabled one-shot
index 0, each resolved through the theorem at the concrete state. -/
theorem C4_witness :
    (trigger_alert c4_state c4_off (5 : Nat) ⟨⟨2025, 6, 1⟩, 0⟩
      = ({ c4_state with alert_timers := removeTimer c4_state.alert_timers 5 }, [])) ∧
    (trigger_alert c4_state c8_alert (1 : Nat) ⟨⟨2025, 6, 1⟩, 0⟩
      = ({ c4_state with alert_timers := removeTimer c4_state.alert_timers 1 }, [])) ∧
    ((trigger_alert c4_state c4_off (0 : Nat) ⟨⟨2025, 6, 1⟩, 0⟩).2
      = [getAlert c4_state.alerts 0] ∧
     (trigger_alert c4_state c4_off (0 : Nat) ⟨⟨2025, 6, 1⟩, 0⟩).1.alerts
      = c4_state.alerts.set 0 ({ getAlert c4_state.alerts 0 with enabled := false }) ∧
     lookupTimer (trigger_alert c4_state c4_off (0 : Nat) ⟨⟨2025, 6, 1⟩, 0⟩).1.alert_timers 0
      = none) ∧
    ((schedule_alert_timer c4_state c4_off 1 ⟨⟨2025, 6, 1⟩, 0⟩).alert_timers
      = removeTimer c4_state.alert_timers 1 ∧
     lookupTimer (schedule_alert_timer c4_state c4_off 1 ⟨⟨2025, 6, 1⟩, 0⟩).alert_timers 1
      = none) :=
  ⟨(C4_fire_uses_live_state c4_state c4_off 5 ⟨⟨2025, 6, 1⟩, 0⟩).1 (by decide),
   (C4_fire_uses_live_state c4_state c8_alert 1 ⟨⟨2025, 6, 1⟩, 0⟩).2.1 (by decide) (by decide),
   ⟨((C4_fire_uses_live_state c4_state c4_off 0 ⟨⟨2025, 6, 1⟩, 0⟩).2.2.1 (by decide)
        (by decide)).1,
    (((C4_fire_uses_live_state c4_state c4_off 0 ⟨⟨2025, 6, 1⟩, 0⟩).2.2.1 (by decide)
        (by decide)).2.1 (by decide)).1,
    (((C4_fire_uses_live_state c4_state c4_off 0 ⟨⟨2025, 6, 1⟩, 0⟩).2.2.1 (by decide)
        (by decide)).2.1 (by decide)).2.1⟩,
   (C4_fire_uses_live_state c4_state c4_off 0 ⟨⟨2025, 6, 1⟩, 0⟩).2.2.2 c4_state c4_off 1
      ⟨⟨2025, 6, 1⟩, 0⟩ (by decide)⟩

/-! ## Claim C7: the delay (snooze) flow -/

theorem mem_dedupAux (l : List Alert) :
    ∀ (acc : List Alert) (x : Alert), x ∈ dedupAux acc l ↔ x ∈ acc ∨ x ∈ l := by
  induction l with
  | nil => intro acc x; simp [dedupAux]
  | cons a rest ih =>
    intro acc x
    by_cases ha : a ∈ acc
    · simp only [dedupAux]
      rw [if_pos ha, ih]
      simp only [List.mem_cons]
      constructor
      · rintro (h | h)
        · exact Or.inl h
        · exact Or.inr (Or.inr h)
      · rintro (h | h | h)
        · exact Or.inl h
        · exact Or.inl (h ▸ ha)
        · exact Or.inr h
    · simp only [dedupAux]
      rw [if_neg ha, ih]
      simp only [List.mem_append, List.mem_singleton, List.mem_cons]
      tauto

theorem nodup_dedupAux (l : List Alert) :
    ∀ acc : List Alert, acc.Nodup → (dedupAux acc l).Nodup := by
  induction l with
  | nil => intro acc h; simpa [dedupAux] using h
  | cons a rest ih =>
    intro acc h
    by_cases ha : a ∈ acc
    · simp only [dedupAux]
      rw [if_pos ha]
      exact ih acc h
    · simp only [dedupAux]
      rw [if_neg ha]
      refine ih _ ?_
      rw [List.nodup_append]
      refine ⟨h, by simp, ?_⟩
      intro x hx
      simp only [List.mem_singleton]
      intro hxa
      exact ha (hxa ▸ hx)

theorem addSecs_spec (dt : QDateTime) (s : Int) (hv : dt.date.valid) (ht0 : 0 ≤ dt.time)
    (hs : 0 ≤ s) :
    (dt.addSecs s).toSecs = dt.toSecs + s ∧ (dt.addSecs s).date.valid ∧
      0 ≤ (dt.addSecs s).time ∧ (dt.addSecs s).time < 86400 := by
  unfold QDateTime.addSecs QDateTime.toSecs
  dsimp only
  have hdays := toDayNumber_addDays dt.date hv ((dt.time + s) / 86400).toNat
  refine ⟨?_, addDays_valid _ hv _, by omega, by omega⟩
  rw [hdays]
  omega

theorem delayLoop_spec (target now : QDateTime) :
    ∀ (l : List Alert) (st : SchedState),
      (l.foldl (fun s a0 => schedule_single_alert_instance s (mkDelayedAlert a0 target) now)
          st).temporary_timers
        = st.temporary_timers ++ l.map (fun a0 => mkDelayedTimer a0 target now) ∧
      (l.foldl (fun s a0 => schedule_single_alert_instance s (mkDelayedAlert a0 target) now)
          st).alerts = st.alerts ∧
      (l.foldl (fun s a0 => schedule_single_alert_instance s (mkDelayedAlert a0 target) now)
          st).alert_timers = st.alert_timers := by
  intro l
  induction l with
  | nil => intro st; simp
  | cons a rest ih =>
    intro st
    simp only [List.foldl_cons, List.map_cons]
    have hstep : schedule_single_alert_instance st (mkDelayedAlert a target) now
        = { st with
            temporary_timers := st.temporary_timers ++ [mkDelayedTimer a target now] } := rfl
    rw [hstep]
    obtain ⟨h1, h2, h3⟩ := ih ({ st with
      temporary_timers := st.temporary_timers ++ [mkDelayedTimer a target now] })
    refine ⟨?_, h2, h3⟩
    rw [h1]
    simp

/-- C7: delay_alerts deduplicates the presented snapshots by structural
equality and creates exactly one ephemeral timer per unique alert record
(the map over the nodup dedupKeepFirst list), each delayed instance having
repeat forced to No Repeat, enabled forced to true, the -1 index sentinel,
and trigger instant now + minutes (delay = 60000·minutes ms); neither
scheduling nor the later firing of an ephemeral timer (index -1) touches
the alert list or the regular timers. -/
theorem C7_delay_one_timer_per_unique (st : SchedState) (active : List Alert) (minutes : Int)
    (now : QDateTime) (hne : active ≠ []) (hm : 0 ≤ minutes) (hnv : now.date.valid)
    (hnt : 0 ≤ now.time) :
    (delay_alerts st active minutes now).temporary_timers
      = st.temporary_timers
        ++ (dedupKeepFirst active).map
            (fun a0 => mkDelayedTimer a0 (now.addSecs (minutes * 60)) now) ∧
    (delay_alerts st active minutes now).alerts = st.alerts ∧
    (delay_alerts st active minutes now).alert_timers = st.alert_timers ∧
    (dedupKeepFirst active).Nodup ∧
    (∀ x, x ∈ dedupKeepFirst active ↔ x ∈ active) ∧
    (∀ a0, (mkDelayedAlert a0 (now.addSecs (minutes * 60))).repeat_mode = REPEAT_OPTION_NONE ∧
        (mkDelayedAlert a0 (now.addSecs (minutes * 60))).enabled = true ∧
        (mkDelayedAlert a0 (now.addSecs (minutes * 60))).original_alert_index = some (-1) ∧
        (mkDelayedAlert a0 (now.addSecs (minutes * 60))).date
          = some (now.addSecs (minutes * 60)).date ∧
        (mkDelayedAlert a0 (now.addSecs (minutes * 60))).time
          = some (now.addSecs (minutes * 60)).time) ∧
    (now.addSecs (minutes * 60)).toSecs = now.toSecs + minutes * 60 ∧
    (∀ a0, (mkDelayedTimer a0 (now.addSecs (minutes * 60)) now).interval
        = 1000 * (minutes * 60)) ∧
    (∀ st2 a2 tmr now2,
        (handle_temporary_alert_trigger st2 a2 tmr now2).1.alerts = st2.alerts ∧
        (handle_temporary_alert_trigger st2 a2 tmr now2).1.alert_timers = st2.alert_timers ∧
        (handle_temporary_alert_trigger st2 a2 tmr now2).2 = [a2]) := by
  have haddsecs := addSecs_spec now (minutes * 60) hnv hnt (by omega)
  obtain ⟨h1, h2, h3⟩ :=
    delayLoop_spec (now.addSecs (minutes * 60)) now (dedupKeepFirst active) st
  refine ⟨?_, ?_, ?_, nodup_dedupAux active [] (by simp), ?_, ?_, haddsecs.1, ?_, ?_⟩
  · unfold delay_alerts
    rw [if_neg hne]
    exact h1
  · unfold delay_alerts
    rw [if_neg hne]
    exact h2
  · unfold delay_alerts
    rw [if_neg hne]
    exact h3
  · intro x
    unfold dedupKeepFirst
    rw [mem_dedupAux]
    simp
  · intro a0
    exact ⟨rfl, rfl, rfl, rfl, rfl⟩
  · intro a0
    unfold mkDelayedTimer
    dsimp only
    rw [haddsecs.1]
    omega
  · intro st2 a2 tmr now2
    unfold handle_temporary_alert_trigger trigger_alert
    rw [if_pos rfl]
    exact ⟨rfl, rfl, rfl⟩

/-- C7, witness: three identical presentations of c8_alert yield exactly
the one delayed timer of the dedup singleton, and the store is untouched. -/
theorem C7_witness :
    (delay_alerts ⟨[], [], []⟩ [c8_alert, c8_alert, c8_alert] 10
        ⟨⟨2025, 6, 1⟩, 43200⟩).temporary_timers
      = [] ++ (dedupKeepFirst [c8_alert, c8_alert, c8_alert]).map
          (fun a0 => mkDelayedTimer a0
            (QDateTime.addSecs ⟨⟨2025, 6, 1⟩, 43200⟩ (10 * 60)) ⟨⟨2025, 6, 1⟩, 43200⟩) ∧
    (delay_alerts ⟨[], [], []⟩ [c8_alert, c8_alert, c8_alert] 10
        ⟨⟨2025, 6, 1⟩, 43200⟩).alerts = [] ∧
    (dedupKeepFirst [c8_alert, c8_alert, c8_alert]).Nodup :=
  ⟨(C7_delay_one_timer_per_unique ⟨[], [], []⟩ [c8_alert, c8_alert, c8_alert] 10
      ⟨⟨2025, 6, 1⟩, 43200⟩ (by decide) (by decide) (by decide) (by decide)).1,
   (C7_delay_one_timer_per_unique ⟨[], [], []⟩ [c8_alert, c8_alert, c8_alert] 10
      ⟨⟨2025, 6, 1⟩, 43200⟩ (by decide) (by decide) (by decide) (by decide)).2.1,
   (C7_delay_one_timer_per_unique ⟨[], [], []⟩ [c8_alert, c8_alert, c8_alert] 10
      ⟨⟨2025, 6, 1⟩, 43200⟩ (by decide) (by decide) (by decide) (by decide)).2.2.2.1⟩

/-! ## Claim C6: reindexing after a removal -/

theorem reindexLoop_step_pos (now : QDateTime) (st : SchedState) (j : Nat) (rest : List Nat)
    (he : (getAlert st.alerts j).enabled = true) :
    reindexLoop now st (j :: rest)
      = reindexLoop now (schedule_alert_timer st (getAlert st.alerts j) (j : Int) now) rest := by
  simp only [reindexLoop]
  rw [if_pos he]

theorem reindexLoop_step_neg (now : QDateTime) (st : SchedState) (j : Nat) (rest : List Nat)
    (he : ¬ ((getAlert st.alerts j).enabled = true)) :
    reindexLoop now st (j :: rest) = reindexLoop now st rest := by
  simp only [reindexLoop]
  rw [if_neg he]

theorem reindexLoop_lookup_frame (now : QDateTime) :
    ∀ (L : List Nat) (st : SchedState) (i : Int), (∀ j ∈ L, (j : Int) ≠ i) →
      lookupTimer (reindexLoop now st L).alert_timers i = lookupTimer st.alert_timers i := by
  intro L
  induction L with
  | nil => intro st i h; rfl
  | cons j rest ih =>
    intro st i h
    have hj : (j : Int) ≠ i := h j (by simp)
    by_cases he : (getAlert st.alerts j).enabled = true
    · rw [reindexLoop_step_pos now st j rest he]
      rw [ih _ i (fun x hx => h x (by simp [hx]))]
      exact schedule_lookup_ne _ _ _ _ _ (by omega)
    · rw [reindexLoop_step_neg now st j rest he]
      exact ih _ i (fun x hx => h x (by simp [hx]))

theorem reindexLoop_char (now : QDateTime) :
    ∀ (k s : Nat) (st : SchedState),
      (∀ j : Nat, s ≤ j → lookupTimer st.alert_timers (j : Int) = none) →
      s + k ≤ st.alerts.length →
      ∀ j : Nat, s ≤ j →
        lookupTimer (reindexLoop now st (List.range' s k)).alert_timers (j : Int)
          = if j < s + k then armOutcome (getAlert st.alerts j) now else none := by
  intro k
  induction k with
  | zero =>
    intro s st hnone hlen j hj
    rw [if_neg (by omega)]
    exact hnone j hj
  | succ k ih =>
    intro s st hnone hlen j hj
    have hrange : List.range' s (k + 1) = s :: List.range' (s + 1) k := rfl
    rw [hrange]
    have hmem : ∀ x ∈ List.range' (s + 1) k, s + 1 ≤ x := by
      intro x hx
      exact (List.mem_range'_1.mp hx).1
    by_cases he : (getAlert st.alerts s).enabled = true
    · rw [reindexLoop_step_pos now st s _ he]
      have hlen2 : (s + 1) + k
          ≤ (schedule_alert_timer st (getAlert st.alerts s) (s : Int) now).alerts.length := by
        rw [schedule_alerts_length]
        omega
      have hnone2 : ∀ j2 : Nat, s + 1 ≤ j2 →
          lookupTimer (schedule_alert_timer st (getAlert st.alerts s) (s : Int)
              now).alert_timers (j2 : Int) = none := by
        intro j2 hj2
        rw [schedule_lookup_ne _ _ _ _ _ (by omega : (j2 : Int) ≠ (s : Int))]
        exact hnone j2 (by omega)
      rcases Nat.eq_or_lt_of_le hj with rfl | hjgt
      · rw [reindexLoop_lookup_frame now _ _ _ (fun x hx => by
          have := hmem x hx
          omega)]
        rw [schedule_lookup_self]
        rw [if_pos (by omega)]
      · have hchar := ih (s + 1) _ hnone2 hlen2 j (by omega)
        rw [hchar]
        rw [getAlert_schedule_ne _ _ _ _ _ (by omega : (j : Int) ≠ (s : Int))]
        simp only [show s + 1 + k = s + (k + 1) from by omega]
    · rw [reindexLoop_step_neg now st s _ he]
      rcases Nat.eq_or_lt_of_le hj with rfl | hjgt
      · rw [reindexLoop_lookup_frame now _ _ _ (fun x hx => by
          have := hmem x hx
          omega)]
        rw [hnone s (le_refl s)]
        rw [if_pos (by omega)]
        rw [armOutcome_disabled _ _ (by
          revert he
          cases (getAlert st.alerts s).enabled <;> simp)]
      · have hchar := ih (s + 1) st (fun j2 hj2 => hnone j2 (by omega)) (by omega) j (by omega)
        rw [hchar]
        simp only [show s + 1 + k = s + (k + 1) from by omega]

/-- Alerts and state of the scenario: after removing index 1 from a
4-element store [a0 (disabled), a1 (enabled), a2 (disabled), a3 (enabled)],
the store holds [a0, a2, a3] while timers still sit at the old indices 1
and 3. -/
def c6_a0 : Alert :=
  ⟨false, some ⟨2025, 1, 1⟩, some 28800, REPEAT_OPTION_DAILY, "a0", [], 1, "Main", none⟩

def c6_a1 : Alert :=
  ⟨true, some ⟨2025, 1, 1⟩, some 32400, REPEAT_OPTION_DAILY, "a1", [], 1, "Main", none⟩

def c6_a2 : Alert :=
  ⟨false, some ⟨2025, 1, 1⟩, some 34200, REPEAT_OPTION_DAILY, "a2", [], 1, "Main", none⟩

def c6_a3 : Alert :=
  ⟨true, some ⟨2025, 1, 1⟩, some 36000, REPEAT_OPTION_DAILY, "a3", [], 1, "Main", none⟩

def c6_now : QDateTime := ⟨⟨2025, 6, 1⟩, 43200⟩

def c6_state : SchedState :=
  ⟨[c6_a0, c6_a2, c6_a3], [(1, ⟨c6_a1, 0⟩), (3, ⟨c6_a3, 0⟩)], []⟩

/-- C6: reindex_timers_after_removal r (run after the store has shifted)
leaves every timer entry below r unchanged, and at every index ≥ r the
resulting entry is exactly what re-arming the (shifted) alert at that index
produces — armOutcome, which is none for a disabled alert — and none beyond
the new store length; in the concrete scenario (live timers at old indices
1 and 3 of a 4-element store, index 1 removed) exactly one armed timer
remains, addressable at index 2, and none at the stale index 3. -/
theorem C6_reindex_frame_and_rearm :
    (∀ (st : SchedState) (r : Nat) (now : QDateTime) (j : Int), j < (r : Int) →
        lookupTimer (reindex_timers_after_removal st r now).alert_timers j
          = lookupTimer st.alert_timers j) ∧
    (∀ (st : SchedState) (r : Nat) (now : QDateTime) (j : Nat), r ≤ j →
        lookupTimer (reindex_timers_after_removal st r now).alert_timers (j : Int)
          = if j < st.alerts.length then armOutcome (getAlert st.alerts j) now else none) ∧
    ((reindex_timers_after_removal c6_state 1 c6_now).alert_timers.map Prod.fst = [2]) := by
  refine ⟨?_, ?_, by decide⟩
  · intro st r now j hj
    unfold reindex_timers_after_removal
    rw [reindexLoop_lookup_frame now _ _ _ (fun x hx => by
      have := (List.mem_range'_1.mp hx).1
      omega)]
    exact lookupTimer_keepBelow_lt _ _ _ hj
  · intro st r now j hj
    unfold reindex_timers_after_removal
    by_cases hr : r ≤ st.alerts.length
    · have hchar := reindexLoop_char now (st.alerts.length - r) r
        ({ st with alert_timers := keepBelow st.alert_timers (r : Int) })
        (fun j2 hj2 => lookupTimer_keepBelow_ge _ _ _ (by omega)) (by dsimp only; omega) j hj
      rw [hchar]
      simp only [show r + (st.alerts.length - r) = st.alerts.length from by omega]
    · have hzero : st.alerts.length - r = 0 := by omega
      rw [hzero]
      rw [if_neg (by omega)]
      exact lookupTimer_keepBelow_ge _ _ _ (by omega)

/-- C6, witness: the theorem applied at the scenario state — index 0 (below
the removal point) is untouched, and the stale index 3 resolves to the
beyond-length branch. -/
theorem C6_witness :
    lookupTimer (reindex_timers_after_removal c6_state 1 c6_now).alert_timers 0
      = lookupTimer c6_state.alert_timers 0 ∧
    lookupTimer (reindex_timers_after_removal c6_state 1 c6_now).alert_timers ((3 : Nat) : Int)
      = (if (3 : Nat) < c6_state.alerts.length then armOutcome (getAlert c6_state.alerts 3) c6_now
         else none) ∧
    lookupTimer (reindex_timers_after_removal c6_state 1 c6_now).alert_timers ((2 : Nat) : Int)
      = (if (2 : Nat) < c6_state.alerts.length then armOutcome (getAlert c6_state.alerts 2) c6_now
         else none) :=
  ⟨C6_reindex_frame_and_rearm.1 c6_state 1 c6_now 0 (by decide),
   C6_reindex_frame_and_rearm.2.1 c6_state 1 c6_now 3 (by decide),
   C6_reindex_frame_and_rearm.2.1 c6_state 1 c6_now 2 (by decide)⟩

end GAS
